import Mathlib

/-!
Verification of the `sync` terminal editor (src/sync.py) against its
natural-language specification.  The script's state and handlers are
shallowly embedded as pure Lean functions: document text is `List Char`,
identifiers (language names, EOL-mode keys, filenames) are `String`, and
the modal dialogs are modelled by `Option String` inputs (`none` stands
for a cancelled dialog, an empty string for an empty submission; both are
falsy in Python).
-/

set_option autoImplicit false

namespace Sync

/-- Models Python `str.lower()` for the ASCII identifiers this program
compares (`Char.toLower` lowercases exactly the ASCII uppercase letters). -/
def pyLower (s : String) : String :=
  String.mk (s.data.map Char.toLower)

/-- Association-list lookup, modelling a Python `dict` built from string
keys: `assocGet k d` is `d.get(k)` / `d[k]` when present. -/
def assocGet (k : String) : List (String × String) → Option String
  | [] => none
  | (k', v) :: rest => if k = k' then some v else assocGet k rest

/-- `SUPPORTED_LANGS` from src/sync.py lines 20-24. -/
def SUPPORTED_LANGS : List String :=
  ["python", "javascript", "typescript", "html", "css", "bash", "c", "cpp", "rust",
   "java", "go", "ruby", "php", "csharp", "swift", "kotlin", "scala", "perl", "lua",
   "haskell", "elixir", "r", "dart", "sql", "fortran", "erlang"]

/-- The error surfaced by the language-change handler's `else` branch
(`message_dialog(title="Error", text="Unknown language")`, line 134). -/
inductive LangError where
  | unknownLanguage
  deriving DecidableEq

/-- The `escape l` key handler (src/sync.py lines 122-134): prompt for a
language; a cancelled or empty dialog returns with no change and no
error; otherwise the input is lowercased, a member of `SUPPORTED_LANGS`
becomes the new `current_lang` (and the lexer is swapped), and anything
else leaves `current_lang` untouched and shows the Unknown language
dialog.  Result: (new `current_lang`, reported error). -/
def langHandler (cur : String) (choice : Option String) : String × Option LangError :=
  match choice with
  | none => (cur, none)
  | some c =>
    if c = "" then (cur, none)
    else
      let c := pyLower c
      if c ∈ SUPPORTED_LANGS then (c, none)
      else (cur, some LangError.unknownLanguage)

/-- Index of the last occurrence of `ch` in `l` (Python `str.rfind`,
restricted to found/not-found). -/
def rfindIdx (ch : Char) (l : List Char) : Option Nat :=
  match l.reverse.findIdx? (fun c => c == ch) with
  | none => none
  | some i => some (l.length - 1 - i)

/-- The extension part (with its leading dot) of `os.path.splitext`, as
used on line 43: split at the last `.` that lies after the last `/` and
is preceded (within the basename) by at least one non-dot character;
otherwise the extension is empty. -/
def splitext_ext (p : List Char) : List Char :=
  let s1 : Nat :=
    match rfindIdx '/' p with
    | none => 0
    | some s => s + 1
  match rfindIdx '.' p with
  | none => []
  | some d =>
    if s1 ≤ d ∧ ((p.drop s1).take (d - s1)).any (fun c => c != '.') then
      p.drop d
    else []

/-- The literal extension-to-language dict of `detect_lang`
(src/sync.py lines 44-57). -/
def ext_lang_map : List (String × String) :=
  [("py", "python"), ("js", "javascript"), ("ts", "typescript"),
   ("html", "html"), ("css", "css"), ("c", "c"), ("cpp", "cpp"),
   ("cc", "cpp"), ("rs", "rust"), ("java", "java"), ("go", "go"),
   ("sh", "bash")]

/-- `detect_lang` (src/sync.py lines 40-57): `None` or an empty filename
gives `"python"`; otherwise the extension is taken via
`os.path.splitext`, lowercased, stripped of its leading dot, and looked
up in the dict with default `"python"`. -/
def detect_lang (fname : Option String) : String :=
  match fname with
  | none => "python"
  | some f =>
    if f = "" then "python"
    else
      let ext := String.mk (((splitext_ext f.data).map Char.toLower).dropWhile (fun c => c == '.'))
      (assocGet ext ext_lang_map).getD "python"

/-- `EOL_FORMATS` (src/sync.py lines 69-73), as an association list
standing for the Python dict. -/
def EOL_FORMATS : List (String × String) :=
  [("unix", "\n"), ("dos", "\r\n"), ("mac", "\r")]

/-- `current_eol = "unix"` (src/sync.py line 74): the initial EOL mode. -/
def initial_current_eol : String := "unix"

/-- The terminator bytes the save handler uses for a mode key:
`EOL_FORMATS[k]` with an out-of-dict default only for totality (the
handler never reaches it on reachable states, see `eol_mode_invariant`). -/
def eolOf (k : String) : List Char :=
  ((assocGet k EOL_FORMATS).getD "").data

/-- The EOL-choice step inside the save handler (src/sync.py lines
97-103): `if eol_choice and eol_choice.lower() in EOL_FORMATS:
current_eol = eol_choice.lower()` -- a cancelled, empty or unrecognized
input keeps the previous mode. -/
def eolStep (cur : String) (input : Option String) : String :=
  match input with
  | none => cur
  | some s =>
    if s ≠ "" ∧ (assocGet (pyLower s) EOL_FORMATS).isSome then pyLower s
    else cur

/-- Line 106, `editor.text.replace("\n", EOL_FORMATS[current_eol])`:
serialization replaces each in-memory line break with the mode's
terminator sequence. -/
def pySerialize (eol : List Char) : List Char → List Char
  | [] => []
  | c :: rest =>
    if c = '\n' then eol ++ pySerialize eol rest
    else c :: pySerialize eol rest

/-- Universal-newline translation performed by the text-mode read at
load (src/sync.py lines 35-37, `open(filename, "r", ...)`): each
`"\r\n"` pair and each lone `'\r'` becomes `'\n'`. -/
def normalizeNewlines : List Char → List Char
  | [] => []
  | '\r' :: '\n' :: rest => '\n' :: normalizeNewlines rest
  | '\r' :: rest => '\n' :: normalizeNewlines rest
  | c :: rest => c :: normalizeNewlines rest

/-- Join lines with a separator: a text whose maximal `'\n'`-free lines
are `lines` is `joinLines` (cons '\n') `lines`. -/
def joinLines (sep : List Char) : List (List Char) → List Char
  | [] => []
  | [l] => l
  | l :: ls => l ++ sep ++ joinLines sep ls

/-- The spec's `EolMode` enum (spec section 3). -/
inductive EolMode where
  | lf
  | crlf
  | cr
  deriving DecidableEq

/-- The `EolMode` denoted by each `EOL_FORMATS` key, per the save
dialog's own text "unix (LF), dos (CRLF), mac (CR)" (line 99). -/
def keyToMode (k : String) : EolMode :=
  if k = "dos" then EolMode.crlf
  else if k = "mac" then EolMode.cr
  else EolMode.lf

/-- The EOL mode the program holds right after the module-level load
(src/sync.py lines 33-37 and 74): the load never inspects the raw bytes'
terminators, `current_eol` is simply initialized to `"unix"`. -/
def loadCurrentEol (raw : List Char) : String :=
  let _ := raw
  initial_current_eol

/-- Counts of `"\r\n"` pairs, lone `'\n'` and lone `'\r'` in a raw
input, scanning left to right. -/
def countEols : List Char → Nat × Nat × Nat
  | [] => (0, 0, 0)
  | '\r' :: '\n' :: rest =>
    let (a, b, d) := countEols rest
    (a + 1, b, d)
  | '\r' :: rest =>
    let (a, b, d) := countEols rest
    (a, b, d + 1)
  | '\n' :: rest =>
    let (a, b, d) := countEols rest
    (a, b + 1, d)
  | _ :: rest => countEols rest

/-- Modelled from the spec: the `detect` operation of the Line-Ending
Codec (spec sections 3, 4.6 and 8), which does not exist anywhere in
src/sync.py.  "Detection counts occurrences of CRLF, lone LF, and lone
CR; the mode with the highest count wins; ties break toward LF; an empty
or terminator-free input defaults to LF." -/
def detectSpec (raw : List Char) : EolMode :=
  let (crlf, lf, cr) := countEols raw
  if crlf = 0 ∧ lf = 0 ∧ cr = 0 then EolMode.lf
  else if lf ≥ crlf ∧ lf ≥ cr then EolMode.lf
  else if crlf ≥ cr then EolMode.crlf
  else EolMode.cr

/-- Python truthiness of an optional string: `None` and `""` are falsy. -/
def truthyStr : Option String → Bool
  | none => false
  | some s => s != ""

/-- The state visible right after the module-level load. -/
structure StartupState where
  filename : Option String
  text : List Char
  deriving DecidableEq

/-- Module-level load (src/sync.py lines 33-37): `filename` is
`sys.argv[1]` when given (else `None`) and is kept as given; `text`
starts empty and is filled from the file only when `filename` is truthy
and the path exists, the text-mode read applying universal-newline
translation.  `pathExists` and `readFile` model the filesystem. -/
def startup (argv1 : Option String) (pathExists : String → Bool)
    (readFile : String → List Char) : StartupState :=
  let filename := argv1
  let text : List Char :=
    match filename with
    | none => []
    | some f => if f ≠ "" ∧ pathExists f then normalizeNewlines (readFile f) else []
  ⟨filename, text⟩

/-- The save handler's first step (src/sync.py line 91, `if not
filename:`): the Save As dialog is shown exactly when the bound filename
is falsy. -/
def needsSaveAsPrompt (filename : Option String) : Bool :=
  !(truthyStr filename)

/-- The editor state the save handler reads and writes: the bound
filename, `current_eol`, and `editor.text` (already `'\n'`-canonical in
memory). -/
structure EditorState where
  filename : Option String
  current_eol : String
  text : List Char
  deriving DecidableEq

/-- What the save handler reports back to the user. -/
inductive SaveResult where
  | aborted
  | savedDialog (fname eol : String)
  | errorDialog (msg : String)
  deriving DecidableEq

/-- The message `str(e)` would carry for the `KeyError` that
`EOL_FORMATS[current_eol]` would raise on a key outside the dict. -/
def keyErrorMsg (k : String) : String :=
  "KeyError: " ++ k

/-- The `c-o` save handler (src/sync.py lines 87-111).  `fnameInput` is
the Save As dialog's result (consulted only when the bound filename is
falsy; a falsy result aborts the save), `eolInput` the Select Line
Ending dialog's result, and `fsWrite` the outcome of `open(...)` plus
`f.write(content)` — `Except.error e` models a raised `OSError` with
message `e`.  Both the write failure and the (unreachable) `KeyError`
from `EOL_FORMATS[current_eol]` are caught by the `except` clause and
shown as a dismissible error dialog; the handler never touches
`editor.text`. -/
def saveHandler (st : EditorState) (fnameInput : Option String) (eolInput : Option String)
    (fsWrite : String → List Char → Except String Unit) : EditorState × SaveResult :=
  let fname? : Option String :=
    if truthyStr st.filename then st.filename
    else
      match fnameInput with
      | none => none
      | some f => if f = "" then none else some f
  match fname? with
  | none => (st, SaveResult.aborted)
  | some fname =>
    let eol := eolStep st.current_eol eolInput
    let st' : EditorState := { st with filename := some fname, current_eol := eol }
    match assocGet eol EOL_FORMATS with
    | none => (st', SaveResult.errorDialog (keyErrorMsg eol))
    | some eolStr =>
      let content := pySerialize eolStr.data st.text
      match fsWrite fname content with
      | Except.ok _ => (st', SaveResult.savedDialog fname eol)
      | Except.error e => (st', SaveResult.errorDialog e)

/-- What the `c-x` quit handler does: whether it invoked the save
handler first, and whether it exited the application. -/
structure QuitResult where
  savedFirst : Bool
  exited : Bool
  deriving DecidableEq

/-- The `c-x` quit handler (src/sync.py lines 113-120): when the buffer
is dirty it shows one "Save before exit? (y/n)" dialog (`ans` models its
result, `none` = cancelled); only a truthy answer lowercasing to `"y"`
triggers a save, and `event.app.exit()` then runs unconditionally — every
path exits. -/
def quitHandler (dirty : Bool) (ans : Option String) : QuitResult :=
  if dirty then
    let doSave :=
      match ans with
      | none => false
      | some s => (s != "") && (pyLower s == "y")
    ⟨doSave, true⟩
  else ⟨false, true⟩

/-- Column width of a leading-whitespace run under CPython's tokenizer
with tabs advancing to the next multiple of 8 (the `col` the tokenizer
compares for INDENT/DEDENT). -/
def colWidth8 (ws : List Char) : Nat :=
  ws.foldl (fun col c => if c = '\t' then (col / 8 + 1) * 8 else col + 1) 0

/-- The same run's width when a tab counts as a single column
(CPython's `altcol`, used to detect tab/space ambiguity). -/
def colWidth1 (ws : List Char) : Nat :=
  ws.length

/-- CPython's tab-consistency rule at a block boundary: the comparison
between the enclosing indentation and the new line's indentation must
come out the same whether tabs are worth 8 or 1 columns; otherwise the
tokenizer raises `TabError` ("inconsistent use of tabs and spaces in
indentation"). -/
def indentConsistent (encl ws : List Char) : Bool :=
  (decide (colWidth8 encl < colWidth8 ws) == decide (colWidth1 encl < colWidth1 ws)) &&
  (decide (colWidth8 encl = colWidth8 ws) == decide (colWidth1 encl = colWidth1 ws))

/-- Leading whitespace of src/sync.py line 133 (`else:`), four spaces —
the indentation level on the tokenizer's stack when line 134 is read. -/
def line133Indent : List Char := [' ', ' ', ' ', ' ']

/-- Leading whitespace of src/sync.py line 134
(`message_dialog(...)`), a single tab. -/
def line134Indent : List Char := ['\t']

/-- The identifiers bound at module top level by src/sync.py (imports,
module globals, `def`s, the `with ... as f` target, and the `_` name the
decorated handlers rebind).  `__name__` is among a module's implicit
attributes, but plain `name` is bound nowhere — nor is it a Python
builtin. -/
def topLevelBoundNames : List String :=
  ["sys", "os", "Application", "KeyBindings", "Layout", "HSplit", "TextArea",
   "Label", "PygmentsLexer", "input_dialog", "message_dialog", "Style",
   "get_lexer_by_name", "ClassNotFound", "SUPPORTED_LANGS", "style",
   "filename", "text", "f", "detect_lang", "lexer_for", "current_lang",
   "editor", "EOL_FORMATS", "current_eol", "status_text", "status_bar",
   "kb", "_", "root", "layout", "app", "main"]

/-- How an attempt to execute src/sync.py as a program ends. -/
inductive ScriptRun where
  | tabError
  | nameError
  | guardReached
  deriving DecidableEq

/-- Outcome of `python3 sync.py`: the interpreter first compiles the
whole file; if tokenization rejects the indentation of line 134 the run
dies with `TabError` before any top-level statement executes; otherwise
the top level would run until the entry guard `if name == "__main__":`
(line 152), whose identifier lookup raises `NameError` when `name` is
unbound. -/
def scriptRunOutcome : ScriptRun :=
  if indentConsistent line133Indent line134Indent then
    if "name" ∈ topLevelBoundNames then ScriptRun.guardReached
    else ScriptRun.nameError
  else ScriptRun.tabError

/-! ## Helper lemmas about the embedded operations -/

@[simp]
theorem normalizeNewlines_nil : normalizeNewlines [] = [] := rfl

@[simp]
theorem normalizeNewlines_crlf (rest : List Char) :
    normalizeNewlines ('\r' :: '\n' :: rest) = '\n' :: normalizeNewlines rest := rfl

theorem normalizeNewlines_cr_cons (d : Char) (rest : List Char) (hd : d ≠ '\n') :
    normalizeNewlines ('\r' :: d :: rest) = '\n' :: normalizeNewlines (d :: rest) := by
  simp [normalizeNewlines, hd]

@[simp]
theorem normalizeNewlines_cr_nil : normalizeNewlines ['\r'] = ['\n'] := rfl

theorem normalizeNewlines_cons_ne (c : Char) (rest : List Char) (hc : c ≠ '\r') :
    normalizeNewlines (c :: rest) = c :: normalizeNewlines rest := by
  cases rest with
  | nil => simp [normalizeNewlines, hc]
  | cons d rest' => simp [normalizeNewlines, hc]

theorem normalizeNewlines_of_no_cr (l : List Char) (h : '\r' ∉ l) :
    normalizeNewlines l = l := by
  induction l with
  | nil => rfl
  | cons c rest ih =>
    have hc : c ≠ '\r' := fun hc => h (hc ▸ List.mem_cons_self c rest)
    rw [normalizeNewlines_cons_ne c rest hc, ih (fun hr => h (List.mem_cons_of_mem c hr))]

theorem no_cr_normalizeNewlines_aux :
    ∀ n, ∀ l : List Char, l.length ≤ n → '\r' ∉ normalizeNewlines l := by
  intro n
  induction n with
  | zero =>
    intro l hl
    have hnil : l = [] := List.length_eq_zero.mp (Nat.le_zero.mp hl)
    subst hnil
    simp
  | succ n ih =>
    intro l hl
    cases l with
    | nil => simp
    | cons c rest =>
      by_cases hc : c = '\r'
      · subst hc
        cases rest with
        | nil =>
          rw [normalizeNewlines_cr_nil]
          decide
        | cons d rest' =>
          by_cases hd : d = '\n'
          · subst hd
            rw [normalizeNewlines_crlf]
            intro hmem
            rcases List.mem_cons.mp hmem with h | h
            · exact absurd h (by decide)
            · exact ih rest' (by simp at hl; omega) h
          · rw [normalizeNewlines_cr_cons d rest' hd]
            intro hmem
            rcases List.mem_cons.mp hmem with h | h
            · exact absurd h (by decide)
            · exact ih (d :: rest') (by simp at hl ⊢; omega) h
      · rw [normalizeNewlines_cons_ne c rest hc]
        intro hmem
        rcases List.mem_cons.mp hmem with h | h
        · exact hc h.symm
        · exact ih rest (by simp at hl; omega) h

theorem no_cr_normalizeNewlines (l : List Char) : '\r' ∉ normalizeNewlines l :=
  no_cr_normalizeNewlines_aux l.length l (Nat.le_refl _)

@[simp]
theorem pySerialize_nil (eol : List Char) : pySerialize eol [] = [] := rfl

@[simp]
theorem pySerialize_nl (eol rest : List Char) :
    pySerialize eol ('\n' :: rest) = eol ++ pySerialize eol rest := by
  simp [pySerialize]

theorem pySerialize_cons_ne (eol : List Char) (c : Char) (rest : List Char) (hc : c ≠ '\n') :
    pySerialize eol (c :: rest) = c :: pySerialize eol rest := by
  simp [pySerialize, hc]

theorem pySerialize_of_no_nl (eol l : List Char) (h : '\n' ∉ l) :
    pySerialize eol l = l := by
  induction l with
  | nil => rfl
  | cons c rest ih =>
    have hc : c ≠ '\n' := fun hc => h (hc ▸ List.mem_cons_self c rest)
    rw [pySerialize_cons_ne eol c rest hc, ih (fun hr => h (List.mem_cons_of_mem c hr))]

theorem pySerialize_append (eol a b : List Char) :
    pySerialize eol (a ++ b) = pySerialize eol a ++ pySerialize eol b := by
  induction a with
  | nil => rfl
  | cons c rest ih =>
    by_cases hc : c = '\n'
    · subst hc; simp [ih]
    · simp [pySerialize_cons_ne eol c _ hc, ih]

theorem pySerialize_lf_id (l : List Char) : pySerialize ['\n'] l = l := by
  induction l with
  | nil => rfl
  | cons c rest ih =>
    by_cases hc : c = '\n'
    · subst hc; simp [ih]
    · rw [pySerialize_cons_ne _ c rest hc, ih]

theorem normalizeNewlines_pySerialize_dos (l : List Char) (h : '\r' ∉ l) :
    normalizeNewlines (pySerialize ['\r', '\n'] l) = l := by
  induction l with
  | nil => rfl
  | cons c rest ih =>
    have hc : c ≠ '\r' := fun hc => h (hc ▸ List.mem_cons_self c rest)
    have hrest : '\r' ∉ rest := fun hr => h (List.mem_cons_of_mem c hr)
    by_cases hn : c = '\n'
    · subst hn
      rw [pySerialize_nl]
      show normalizeNewlines ('\r' :: '\n' :: pySerialize _ rest) = _
      rw [normalizeNewlines_crlf, ih hrest]
    · rw [pySerialize_cons_ne _ c rest hn, normalizeNewlines_cons_ne c _ hc, ih hrest]

theorem no_nl_pySerialize_cr (l : List Char) : '\n' ∉ pySerialize ['\r'] l := by
  induction l with
  | nil => simp
  | cons c rest ih =>
    by_cases hn : c = '\n'
    · subst hn
      rw [pySerialize_nl]
      intro hmem
      rcases List.mem_cons.mp hmem with h | h
      · exact absurd h (by decide)
      · exact ih h
    · rw [pySerialize_cons_ne _ c rest hn]
      intro hmem
      rcases List.mem_cons.mp hmem with h | h
      · exact hn h.symm
      · exact ih h

theorem normalizeNewlines_of_no_nl (l : List Char) (h : '\n' ∉ l) :
    normalizeNewlines l = l.map (fun c => if c = '\r' then '\n' else c) := by
  induction l with
  | nil => rfl
  | cons c rest ih =>
    have hrest : '\n' ∉ rest := fun hr => h (List.mem_cons_of_mem c hr)
    by_cases hc : c = '\r'
    · subst hc
      cases rest with
      | nil => rw [normalizeNewlines_cr_nil]; rfl
      | cons d rest' =>
        have hd : d ≠ '\n' := fun hd => h (hd ▸ List.mem_cons_of_mem _ (List.mem_cons_self d rest'))
        rw [normalizeNewlines_cr_cons d rest' hd, ih hrest]
        simp
    · rw [normalizeNewlines_cons_ne c rest hc, ih hrest]
      simp [hc]

theorem map_pySerialize_cr (l : List Char) (h : '\r' ∉ l) :
    (pySerialize ['\r'] l).map (fun c => if c = '\r' then '\n' else c) = l := by
  induction l with
  | nil => rfl
  | cons c rest ih =>
    have hc : c ≠ '\r' := fun hc => h (hc ▸ List.mem_cons_self c rest)
    have hrest : '\r' ∉ rest := fun hr => h (List.mem_cons_of_mem c hr)
    by_cases hn : c = '\n'
    · subst hn
      rw [pySerialize_nl]
      simp [ih hrest]
    · rw [pySerialize_cons_ne _ c rest hn]
      simp [hc, ih hrest]

theorem normalizeNewlines_pySerialize_mac (l : List Char) (h : '\r' ∉ l) :
    normalizeNewlines (pySerialize ['\r'] l) = l := by
  rw [normalizeNewlines_of_no_nl _ (no_nl_pySerialize_cr l), map_pySerialize_cr l h]

@[simp]
theorem joinLines_nil (sep : List Char) : joinLines sep [] = [] := rfl

@[simp]
theorem joinLines_single (sep : List Char) (l : List Char) : joinLines sep [l] = l := rfl

@[simp]
theorem joinLines_cons_cons (sep l l2 : List Char) (ls : List (List Char)) :
    joinLines sep (l :: l2 :: ls) = l ++ sep ++ joinLines sep (l2 :: ls) := rfl

theorem pySerialize_joinLines (eol : List Char) (lines : List (List Char))
    (h : ∀ l ∈ lines, '\n' ∉ l) :
    pySerialize eol (joinLines ['\n'] lines) = joinLines eol lines := by
  induction lines with
  | nil => rfl
  | cons l ls ih =>
    cases ls with
    | nil =>
      rw [joinLines_single, joinLines_single]
      exact pySerialize_of_no_nl eol l (h l (List.mem_cons_self l []))
    | cons l2 ls2 =>
      rw [joinLines_cons_cons, joinLines_cons_cons, pySerialize_append, pySerialize_append]
      rw [pySerialize_of_no_nl eol l (h l (List.mem_cons_self l _))]
      rw [ih (fun x hx => h x (List.mem_cons_of_mem l hx))]
      show l ++ (eol ++ pySerialize eol []) ++ _ = _
      simp

theorem assocGet_mem_values (k v : String) :
    ∀ l : List (String × String), assocGet k l = some v → v ∈ l.map Prod.snd := by
  intro l
  induction l with
  | nil => intro h; simp [assocGet] at h
  | cons p rest ih =>
    intro h
    rcases p with ⟨k', v'⟩
    by_cases hk : k = k'
    · rw [assocGet, if_pos hk] at h
      simp only [Option.some.injEq] at h
      subst h
      exact List.mem_cons_self _ _
    · rw [assocGet, if_neg hk] at h
      exact List.mem_cons_of_mem _ (ih h)

theorem assocGet_getD_default_mem (k : String) :
    (assocGet k ext_lang_map).getD "python" ∈ SUPPORTED_LANGS := by
  rcases hget : assocGet k ext_lang_map with _ | v
  · simp only [Option.getD_none]
    decide
  · simp only [Option.getD_some]
    have hv := assocGet_mem_values _ _ _ hget
    fin_cases hv <;> decide

/-! ## Claim theorems -/

/-- Claim C1: every language-selection input is lowercased before the
membership check against the closed set `SUPPORTED_LANGS`; a member
becomes the new active language, anything else leaves the active
language unchanged and reports the Unknown language error.  In
particular, setting the language to "python" and then entering "zzz"
leaves the active language "python" and reports the error.  (An input
here is an entered identifier: a cancelled or empty dialog is the
handler's abort path, `if not choice: return`, which changes nothing
and reports nothing.) -/
theorem lang_selection_correct :
    (∀ cur choice : String, choice ≠ "" →
        (pyLower choice ∈ SUPPORTED_LANGS →
            langHandler cur (some choice) = (pyLower choice, none)) ∧
        (pyLower choice ∉ SUPPORTED_LANGS →
            langHandler cur (some choice) = (cur, some LangError.unknownLanguage))) ∧
    langHandler "python" (some "zzz") = ("python", some LangError.unknownLanguage) := by
  constructor
  · intro cur choice hc
    constructor <;> intro hm <;> simp [langHandler, hc, hm]
  · decide

/-- Witness for C1: the concrete scenario, with the hypotheses of
`lang_selection_correct` discharged at input "ZZZ". -/
theorem lang_selection_correct_witness :
    langHandler "python" (some "ZZZ") = ("python", some LangError.unknownLanguage) :=
  (lang_selection_correct.1 "python" "ZZZ" (by decide)).2 (by decide)

/-- Claim C2 counterexample: on the raw input "a\r\nb\r\n" (two CRLF
terminators, nothing else) majority-vote detection as the spec words it
yields CRLF, but the program's load leaves the EOL mode at "unix" (LF):
no detection is performed at load. -/
theorem eol_detection_cex :
    keyToMode (loadCurrentEol ("a\r\nb\r\n").data) = EolMode.lf ∧
    detectSpec ("a\r\nb\r\n").data = EolMode.crlf ∧
    EolMode.lf ≠ EolMode.crlf := by
  decide

/-- Claim C2 as amended: at load the EOL mode is unconditionally
`"unix"` (LF), whatever terminators the raw input holds; the text-mode
read instead normalizes every terminator, so the in-memory text holds
no carriage return at all. -/
theorem load_eol_always_lf (raw : List Char) :
    loadCurrentEol raw = "unix" ∧
    keyToMode (loadCurrentEol raw) = EolMode.lf ∧
    '\r' ∉ normalizeNewlines raw :=
  ⟨rfl, rfl, no_cr_normalizeNewlines raw⟩

/-- Claim C3: serialization replaces every in-memory line break with the
selected mode's terminator — a text whose `'\n'`-free lines are `lines`
serializes under mode "dos" to the same lines joined by CRLF — and a new
document starts in mode "unix", whose terminator is LF. -/
theorem serialize_dos_line_breaks :
    (∀ lines : List (List Char), (∀ l ∈ lines, '\n' ∉ l) →
        pySerialize (eolOf "dos") (joinLines ['\n'] lines) = joinLines (eolOf "dos") lines) ∧
    initial_current_eol = "unix" ∧
    keyToMode initial_current_eol = EolMode.lf ∧
    eolOf "unix" = ['\n'] := by
  refine ⟨fun lines h => pySerialize_joinLines (eolOf "dos") lines h, rfl, rfl, by decide⟩

/-- Witness for C3: the two-line document "a\nbb" saved with mode dos
carries CRLF at its one line break. -/
theorem serialize_dos_line_breaks_witness :
    pySerialize (eolOf "dos") (joinLines ['\n'] [['a'], ['b', 'b']]) =
      joinLines (eolOf "dos") [['a'], ['b', 'b']] :=
  serialize_dos_line_breaks.1 [['a'], ['b', 'b']] (by decide)

/-- Claim C4 counterexample: for the one-character document "\r" under
mode "unix", serialize leaves the carriage return alone but normalize
rewrites it to "\n", so the round trip does not reproduce the first
serialization. -/
theorem serialize_roundtrip_cex :
    pySerialize (eolOf "unix") (normalizeNewlines (pySerialize (eolOf "unix") ['\r'])) ≠
      pySerialize (eolOf "unix") ['\r'] := by
  decide

/-- Claim C4 as amended: for every document text free of carriage
returns (the canonical in-memory form the load produces, see
`load_eol_always_lf`) and every mode key of `EOL_FORMATS`, serializing,
normalizing back, and serializing again reproduces the first
serialization exactly. -/
theorem serialize_roundtrip (text : List Char) (h : '\r' ∉ text)
    (k : String) (hk : k ∈ EOL_FORMATS.map Prod.fst) :
    pySerialize (eolOf k) (normalizeNewlines (pySerialize (eolOf k) text)) =
      pySerialize (eolOf k) text := by
  have hkeys : k = "unix" ∨ k = "dos" ∨ k = "mac" := by
    simpa [EOL_FORMATS] using hk
  rcases hkeys with rfl | rfl | rfl
  · have he : eolOf "unix" = ['\n'] := by decide
    rw [he, pySerialize_lf_id, pySerialize_lf_id]
    exact normalizeNewlines_of_no_cr text h
  · have he : eolOf "dos" = ['\r', '\n'] := by decide
    rw [he, normalizeNewlines_pySerialize_dos text h]
  · have he : eolOf "mac" = ['\r'] := by decide
    rw [he, normalizeNewlines_pySerialize_mac text h]

/-- Witness for C4: the round trip at the concrete document "a\nb" under
mode "dos". -/
theorem serialize_roundtrip_witness :
    pySerialize (eolOf "dos")
        (normalizeNewlines (pySerialize (eolOf "dos") ['a', '\n', 'b'])) =
      pySerialize (eolOf "dos") ['a', '\n', 'b'] :=
  serialize_roundtrip ['a', '\n', 'b'] (by decide) "dos" (by decide)

/-- Claim C5 counterexample: started on the nonexistent path "new.txt",
the editor does begin with an empty document, but the path stays bound
(`filename` keeps the argument), so the first save does not prompt for a
destination — it writes straight to "new.txt". -/
theorem load_missing_path_cex :
    (startup (some "new.txt") (fun _ => false) (fun _ => [])).text = [] ∧
    (startup (some "new.txt") (fun _ => false) (fun _ => [])).filename = some "new.txt" ∧
    needsSaveAsPrompt (startup (some "new.txt") (fun _ => false) (fun _ => [])).filename
      = false := by
  decide

/-- Claim C5 as amended: a nonexistent, nonempty path yields an empty
document with the given path already bound and no Save As prompt on the
first save; only starting with no path argument leaves the path unbound
and makes the first save prompt for a destination. -/
theorem load_missing_path_binds (p : String) (pexists : String → Bool)
    (rd : String → List Char) (hp : p ≠ "") (hex : pexists p = false) :
    (startup (some p) pexists rd).text = [] ∧
    (startup (some p) pexists rd).filename = some p ∧
    needsSaveAsPrompt (some p) = false ∧
    (startup none pexists rd).filename = none ∧
    needsSaveAsPrompt none = true := by
  refine ⟨?_, rfl, ?_, rfl, rfl⟩
  · simp [startup, hex]
  · simp [needsSaveAsPrompt, truthyStr, hp]

/-- Witness for C5's amended theorem at the concrete path "new.txt" on
an empty filesystem. -/
theorem load_missing_path_binds_witness :
    (startup (some "new.txt") (fun _ => false) (fun _ => ['x'])).text = [] ∧
    (startup (some "new.txt") (fun _ => false) (fun _ => ['x'])).filename = some "new.txt" ∧
    needsSaveAsPrompt (some "new.txt") = false ∧
    (startup none (fun _ => false) (fun _ => ['x'])).filename = none ∧
    needsSaveAsPrompt none = true :=
  load_missing_path_binds "new.txt" (fun _ => false) (fun _ => ['x']) (by decide) rfl

/-- Claim C6: the save handler never mutates the document text — on any
input, including every failing write — and when the write raises, the
failure is caught and surfaced as a dismissible error dialog (the
handler returns normally, so the session continues). -/
theorem save_failure_atomic :
    (∀ st fni eoli fsW, ((saveHandler st fni eoli fsW).1).text = st.text) ∧
    (∀ (st : EditorState) (fni eoli : Option String) (e : String)
        (fsW : String → List Char → Except String Unit),
        (∀ f c, fsW f c = Except.error e) →
        truthyStr st.filename = true →
        (assocGet (eolStep st.current_eol eoli) EOL_FORMATS).isSome = true →
        (saveHandler st fni eoli fsW).2 = SaveResult.errorDialog e) := by
  constructor
  · intro st fni eoli fsW
    unfold saveHandler
    dsimp only
    split
    · rfl
    · split
      · rfl
      · split <;> rfl
  · intro st fni eoli e fsW hw hf hk
    rcases hst : st.filename with _ | f
    · rw [hst] at hf; simp [truthyStr] at hf
    · unfold saveHandler
      rw [hst]
      have htr : truthyStr (some f) = true := hst ▸ hf
      rw [if_pos htr]
      rcases hget : assocGet (eolStep st.current_eol eoli) EOL_FORMATS with _ | eolStr
      · rw [hget] at hk; simp at hk
      · simp only [hget, hw]

/-- Witness for C6: a concrete failing save ("disk full") on a bound
file leaves the text untouched and shows the error dialog. -/
theorem save_failure_atomic_witness :
    ((saveHandler ⟨some "a.py", "unix", ['x', '\n', 'y']⟩ none (some "dos")
        (fun _ _ => Except.error "disk full")).1).text = ['x', '\n', 'y'] ∧
    (saveHandler ⟨some "a.py", "unix", ['x', '\n', 'y']⟩ none (some "dos")
        (fun _ _ => Except.error "disk full")).2 = SaveResult.errorDialog "disk full" :=
  ⟨save_failure_atomic.1 ⟨some "a.py", "unix", ['x', '\n', 'y']⟩ none (some "dos") _,
   save_failure_atomic.2 ⟨some "a.py", "unix", ['x', '\n', 'y']⟩ none (some "dos")
     "disk full" _ (fun _ _ => rfl) (by decide) (by decide)⟩

/-- Claim C7 counterexample: quitting dirty and cancelling the prompt
(`none`) does not return to the editing session — the handler still
exits (without saving). -/
theorem quit_cancel_cex :
    (quitHandler true none).exited = true ∧ (quitHandler true none).savedFirst = false := by
  decide

/-- Claim C7 as amended: quit with unsaved changes shows a single
"Save before exit? (y/n)" prompt, not a four-way one; an answer
lowercasing to "y" saves first, and every response — yes, no, anything
else, empty, or cancel — exits the session; no path returns to editing. -/
theorem quit_always_exits :
    (∀ (dirty : Bool) (ans : Option String), (quitHandler dirty ans).exited = true) ∧
    (∀ (dirty : Bool) (ans : Option String),
        (quitHandler dirty ans).savedFirst = true ↔
          (dirty = true ∧ ∃ s, ans = some s ∧ s ≠ "" ∧ pyLower s = "y")) := by
  constructor
  · intro dirty ans
    cases dirty <;> cases ans <;> simp [quitHandler]
  · intro dirty ans
    cases dirty with
    | false => simp [quitHandler]
    | true =>
      cases ans with
      | none => simp [quitHandler]
      | some s => simp [quitHandler]

/-- Claim C8: the active language is at all times a member of
`SUPPORTED_LANGS`: extension detection only returns members (with
default "python" for a missing filename or an unmapped extension), and
the language-change handler preserves membership on every input. -/
theorem lang_invariant :
    (∀ fname : Option String, detect_lang fname ∈ SUPPORTED_LANGS) ∧
    detect_lang none = "python" ∧
    detect_lang (some "README") = "python" ∧
    (∀ (cur : String) (choice : Option String),
        cur ∈ SUPPORTED_LANGS → (langHandler cur choice).1 ∈ SUPPORTED_LANGS) := by
  refine ⟨?_, by decide, by decide, ?_⟩
  · intro fname
    cases fname with
    | none => decide
    | some f =>
      by_cases hf : f = ""
      · subst hf; decide
      · simp only [detect_lang]
        rw [if_neg hf]
        exact assocGet_getD_default_mem _
  · intro cur choice hcur
    cases choice with
    | none => simpa [langHandler] using hcur
    | some c =>
      by_cases hc : c = ""
      · simpa [langHandler, hc] using hcur
      · by_cases hm : pyLower c ∈ SUPPORTED_LANGS
        · simp [langHandler, hc, hm]
        · simpa [langHandler, hc, hm] using hcur

/-- Witness for C8: detection on "x.cc" and the handler rejecting "zzz"
both land in `SUPPORTED_LANGS`. -/
theorem lang_invariant_witness :
    detect_lang (some "x.cc") ∈ SUPPORTED_LANGS ∧
    (langHandler "python" (some "zzz")).1 ∈ SUPPORTED_LANGS :=
  ⟨lang_invariant.1 (some "x.cc"),
   lang_invariant.2.2.2 "python" (some "zzz") (by decide)⟩

/-- Claim C9: the active EOL mode is always a key of `EOL_FORMATS`: it
starts as "unix", the EOL-choice step preserves key-ness on every input
(so the `EOL_FORMATS[current_eol]` lookup the save performs always
succeeds), and a malformed, empty or cancelled EOL input keeps the
previously active mode. -/
theorem eol_mode_invariant :
    (assocGet initial_current_eol EOL_FORMATS).isSome = true ∧
    (∀ (cur : String) (input : Option String),
        (assocGet cur EOL_FORMATS).isSome = true →
        (assocGet (eolStep cur input) EOL_FORMATS).isSome = true) ∧
    (∀ (cur s : String), (assocGet (pyLower s) EOL_FORMATS).isSome = false →
        eolStep cur (some s) = cur) ∧
    (∀ cur : String, eolStep cur none = cur ∧ eolStep cur (some "") = cur) := by
  refine ⟨by decide, ?_, ?_, ?_⟩
  · intro cur input h
    cases input with
    | none => simpa [eolStep] using h
    | some s =>
      by_cases hcond : s ≠ "" ∧ (assocGet (pyLower s) EOL_FORMATS).isSome
      · simp [eolStep, hcond]
      · simpa [eolStep, hcond] using h
  · intro cur s h
    simp [eolStep, h]
  · intro cur
    constructor <;> simp [eolStep]

/-- Witness for C9: stepping from "unix" with the garbage input "zzz"
keeps a valid key, and empty input keeps "dos". -/
theorem eol_mode_invariant_witness :
    (assocGet (eolStep "unix" (some "zzz")) EOL_FORMATS).isSome = true ∧
    eolStep "dos" (some "") = "dos" :=
  ⟨eol_mode_invariant.2.1 "unix" (some "zzz") (by decide),
   (eol_mode_invariant.2.2.2 "dos").2⟩

/-- Claim C10 counterexample: executing src/sync.py does not raise a
`NameError` — compilation of the file dies first with `TabError` at
line 134, whose tab indentation is inconsistent (wider than the
enclosing `else:` under 8-column tabs, narrower under 1-column tabs). -/
theorem entry_guard_cex :
    scriptRunOutcome = ScriptRun.tabError ∧
    scriptRunOutcome ≠ ScriptRun.nameError := by
  decide

/-- Claim C10 as amended: the entry guard does compare the unbound
identifier `name` (it is no module global), but executing the file
raises `TabError` at compile time — before any top-level statement —
so the guard's `NameError` never actually fires and `main()` /
`app.run()` is never reached. -/
theorem entry_guard_never_runs :
    scriptRunOutcome = ScriptRun.tabError ∧
    "name" ∉ topLevelBoundNames ∧
    indentConsistent line133Indent line134Indent = false ∧
    scriptRunOutcome ≠ ScriptRun.guardReached := by
  decide

end Sync

